import Mathlib

/-!
Verification of the transaction-admission check in
src/pallets/dactr/src/extensions/check_app_id.rs.

The development shallowly embeds the pallet's validator: the call tree,
the iterative work-list traversal of ensure_valid_app_id, the block-length
accountant next_all_extrinsics_len, and the combined entry point
do_validate, including the SignedExtension validate and pre_dispatch
wrappers.  Storage reads (peek_next_application_id, DynamicBlockLength,
AllExtrinsicsLen) are modelled as an explicit environment that is threaded
through do_validate; machine integers (u32) are modelled as Nat with
explicit bounds checks at every point the Rust code performs checked
arithmetic.
-/

namespace AvailDactr

/-- The call families relevant to ensure_valid_app_id, mirroring the
dispatch in the Rust code: DataAvailability::submit_data is the restricted
leaf, Utility::batch / batch_all / force_batch are the composite calls
carrying a list of inner calls, and every other runtime call falls into
the catch-all arm (modelled by the other constructor). -/
inductive Call where
  | submitData : Call
  | batch : List Call → Call
  | batchAll : List Call → Call
  | forceBatch : List Call → Call
  | other : Call

/-- The four custom rejection reasons of InvalidTransactionCustomId used
by CheckAppId. -/
inductive RejectReason where
  | invalidAppId : RejectReason
  | forbiddenAppId : RejectReason
  | maxRecursionExceeded : RejectReason
  | maxPaddedLenExceeded : RejectReason
deriving DecidableEq

/-- MAX_ITERATIONS from the Rust source: the bound on composite-call
unwraps per traversal. -/
def MAX_ITERATIONS : Nat := 2

mutual

/-- Structural size of a call tree, used as the termination measure of the
work-list loop. -/
def Call.size : Call → Nat
  | .submitData => 1
  | .other => 1
  | .batch cs => 1 + Call.sizeList cs
  | .batchAll cs => 1 + Call.sizeList cs
  | .forceBatch cs => 1 + Call.sizeList cs

/-- Total structural size of a list of calls (a work stack). -/
def Call.sizeList : List Call → Nat
  | [] => 0
  | c :: cs => Call.size c + Call.sizeList cs

end

theorem Call.size_pos (c : Call) : 1 ≤ Call.size c := by
  cases c <;> simp [Call.size]

theorem Call.sizeList_append (xs ys : List Call) :
    Call.sizeList (xs ++ ys) = Call.sizeList xs + Call.sizeList ys := by
  induction xs with
  | nil => simp [Call.sizeList]
  | cons c cs ih => simp [Call.sizeList, ih]; omega

theorem Call.sizeList_reverse (xs : List Call) :
    Call.sizeList xs.reverse = Call.sizeList xs := by
  induction xs with
  | nil => rfl
  | cons c cs ih =>
    simp [List.reverse_cons, Call.sizeList_append, Call.sizeList, ih]
    omega

/-- The work-list loop of ensure_valid_app_id, one Lean equation per arm of
the Rust loop body.  The stack is a Lean list whose head is the top (Rust
pushes children in order, so the translated push is calls.reverse ++ rest);
cache models the maybe_next_app_id Option that get_or_insert_with fills on
the first submit_data leaf; nextAppId is the value peek_next_application_id
returns (stable during one validation). -/
def validLoop (appId nextAppId : Nat) : List Call → Option Nat → Nat → Except RejectReason Unit
  | [], _, _ => .ok ()
  | Call.submitData :: rest, cache, iterations =>
      if appId < cache.getD nextAppId then
        validLoop appId nextAppId rest (some (cache.getD nextAppId)) iterations
      else
        .error RejectReason.invalidAppId
  | Call.batch calls :: rest, cache, iterations =>
      if iterations + 1 < MAX_ITERATIONS then
        validLoop appId nextAppId (calls.reverse ++ rest) cache (iterations + 1)
      else
        .error RejectReason.maxRecursionExceeded
  | Call.batchAll calls :: rest, cache, iterations =>
      if iterations + 1 < MAX_ITERATIONS then
        validLoop appId nextAppId (calls.reverse ++ rest) cache (iterations + 1)
      else
        .error RejectReason.maxRecursionExceeded
  | Call.forceBatch calls :: rest, cache, iterations =>
      if iterations + 1 < MAX_ITERATIONS then
        validLoop appId nextAppId (calls.reverse ++ rest) cache (iterations + 1)
      else
        .error RejectReason.maxRecursionExceeded
  | Call.other :: _, _, _ => .error RejectReason.forbiddenAppId
termination_by stack _ _ => Call.sizeList stack
decreasing_by
  all_goals
    simp [Call.sizeList, Call.size, Call.sizeList_append, Call.sizeList_reverse]

/-- ensure_valid_app_id from the Rust source: AppId 0 is accepted at once,
any other AppId starts the work-list traversal on a stack holding the root
call, with an empty next-AppId cache and the iteration counter at 0. -/
def ensure_valid_app_id (appId nextAppId : Nat) (call : Call) : Except RejectReason Unit :=
  if appId = 0 then .ok () else validLoop appId nextAppId [call] none 0

/-- Modelled from the spec, section 9: the simpler reimplementation of the
validator loop that re-fetches the next-AppId counter at every submit-data
leaf instead of caching it after the first fetch; the counter is stable
within one validation, so every fetch returns nextAppId. -/
def validLoopRefetch (appId nextAppId : Nat) : List Call → Nat → Except RejectReason Unit
  | [], _ => .ok ()
  | Call.submitData :: rest, iterations =>
      if appId < nextAppId then
        validLoopRefetch appId nextAppId rest iterations
      else
        .error RejectReason.invalidAppId
  | Call.batch calls :: rest, iterations =>
      if iterations + 1 < MAX_ITERATIONS then
        validLoopRefetch appId nextAppId (calls.reverse ++ rest) (iterations + 1)
      else
        .error RejectReason.maxRecursionExceeded
  | Call.batchAll calls :: rest, iterations =>
      if iterations + 1 < MAX_ITERATIONS then
        validLoopRefetch appId nextAppId (calls.reverse ++ rest) (iterations + 1)
      else
        .error RejectReason.maxRecursionExceeded
  | Call.forceBatch calls :: rest, iterations =>
      if iterations + 1 < MAX_ITERATIONS then
        validLoopRefetch appId nextAppId (calls.reverse ++ rest) (iterations + 1)
      else
        .error RejectReason.maxRecursionExceeded
  | Call.other :: _, _ => .error RejectReason.forbiddenAppId
termination_by stack _ => Call.sizeList stack
decreasing_by
  all_goals
    simp [Call.sizeList, Call.size, Call.sizeList_append, Call.sizeList_reverse]

/-- Modelled from the spec, section 9: the re-fetching variant of
ensure_valid_app_id built on validLoopRefetch. -/
def ensure_valid_app_id_refetch (appId nextAppId : Nat) (call : Call) : Except RejectReason Unit :=
  if appId = 0 then .ok () else validLoopRefetch appId nextAppId [call] 0

mutual

/-- A call tree contains a leaf that is neither submit-data nor a
composite (the catch-all arm of the Rust match). -/
def hasOtherLeaf : Call → Bool
  | .submitData => false
  | .other => true
  | .batch cs => hasOtherLeafList cs
  | .batchAll cs => hasOtherLeafList cs
  | .forceBatch cs => hasOtherLeafList cs

/-- Some call of the list contains a leaf that is neither submit-data nor
a composite. -/
def hasOtherLeafList : List Call → Bool
  | [] => false
  | c :: cs => hasOtherLeaf c || hasOtherLeafList cs

end

mutual

/-- A call tree contains at least one submit-data leaf. -/
def hasSubmitLeaf : Call → Bool
  | .submitData => true
  | .other => false
  | .batch cs => hasSubmitLeafList cs
  | .batchAll cs => hasSubmitLeafList cs
  | .forceBatch cs => hasSubmitLeafList cs

/-- Some call of the list contains a submit-data leaf. -/
def hasSubmitLeafList : List Call → Bool
  | [] => false
  | c :: cs => hasSubmitLeaf c || hasSubmitLeafList cs

end

mutual

/-- Total number of composite (batch, batch_all, force_batch) nodes in a
call tree: this is what the traversal's iteration counter counts. -/
def compositeCount : Call → Nat
  | .submitData => 0
  | .other => 0
  | .batch cs => 1 + compositeCountList cs
  | .batchAll cs => 1 + compositeCountList cs
  | .forceBatch cs => 1 + compositeCountList cs

/-- Total number of composite nodes across a list of call trees. -/
def compositeCountList : List Call → Nat
  | [] => 0
  | c :: cs => compositeCount c + compositeCountList cs

end

mutual

/-- Composite nesting depth of a call tree: 0 for a leaf, one more than
the deepest child for a composite. -/
def compositeDepth : Call → Nat
  | .submitData => 0
  | .other => 0
  | .batch cs => 1 + compositeDepthList cs
  | .batchAll cs => 1 + compositeDepthList cs
  | .forceBatch cs => 1 + compositeDepthList cs

/-- Greatest composite nesting depth among a list of call trees. -/
def compositeDepthList : List Call → Nat
  | [] => 0
  | c :: cs => max (compositeDepth c) (compositeDepthList cs)

end

/-- A call is one of the three composite (utility) variants. -/
def isComposite : Call → Bool
  | .batch _ => true
  | .batchAll _ => true
  | .forceBatch _ => true
  | .submitData => false
  | .other => false

/-- Largest value of the u32 type, the grid's native width unit. -/
def U32_MAX : Nat := 4294967295

/-- u32::try_from on a usize length: succeeds exactly when the value fits
in 32 bits. -/
def u32_try_from (n : Nat) : Option Nat :=
  if n ≤ U32_MAX then some n else none

/-- u32 checked_mul: the product, unless it overflows 32 bits. -/
def checkedMul (a b : Nat) : Option Nat :=
  if a * b ≤ U32_MAX then some (a * b) else none

/-- u32 checked_add: the sum, unless it overflows 32 bits. -/
def checkedAdd (a b : Nat) : Option Nat :=
  if a + b ≤ U32_MAX then some (a + b) else none

/-- Modelled from the spec: the padded length of a transaction, its
serialized length "rounded/encoded into the grid's native scalar unit"
(glossary).  The scalar unit holds SCALAR_CHUNK bytes of data. -/
def SCALAR_CHUNK : Nat := 31

/-- Modelled from the spec: number of grid scalars a serialized length
occupies after padding (ceiling division by the scalar chunk size). -/
def padScalars (len : Nat) : Nat := (len + (SCALAR_CHUNK - 1)) / SCALAR_CHUNK

/-- Modelled from the spec: the per-block accounting structure
(frame_system's ExtrinsicLenOf, the value stored under AllExtrinsicsLen,
whose definition is not under src/): "a mapping from AppId to accumulated
padded byte length for the block currently being built, plus totals"
(spec section 3).  Represented as an association list from AppId to the
accumulated padded scalar count, each entry a u32 value. -/
structure ExtrinsicLen where
  lens : List (Nat × Nat)
deriving DecidableEq

/-- The empty accounting snapshot, the Default the Rust code falls back to
via unwrap_or_default when AllExtrinsicsLen holds no value yet. -/
def ExtrinsicLen.empty : ExtrinsicLen := ⟨[]⟩

/-- Modelled from the spec: adding a padded amount under an AppId in the
association list, failing on u32 overflow of the per-application
accumulated value (spec section 4.2, step 3). -/
def addAssoc (a pad : Nat) : List (Nat × Nat) → Option (List (Nat × Nat))
  | [] => if pad ≤ U32_MAX then some [(a, pad)] else none
  | (k, v) :: rest =>
      if k = a then
        (checkedAdd v pad).map (fun v2 => (k, v2) :: rest)
      else
        (addAssoc a pad rest).map (fun r => (k, v) :: r)

/-- Modelled from the spec: ExtrinsicLen::add_padded adds the
transaction's padded length under its AppId, failing with None when the
per-application addition overflows. -/
def ExtrinsicLen.add_padded (e : ExtrinsicLen) (appId len : Nat) : Option ExtrinsicLen :=
  (addAssoc appId (padScalars len) e.lens).map (fun l => ⟨l⟩)

/-- Modelled from the spec: checked sum of the per-application padded
scalar counts, None on u32 overflow (spec section 4.2, step 4). -/
def totalAssoc : List (Nat × Nat) → Option Nat
  | [] => some 0
  | (_, v) :: rest => (totalAssoc rest).bind (fun t => checkedAdd v t)

/-- Modelled from the spec: ExtrinsicLen::total_num_scalars, the grand
total of padded scalars across all applications, None on overflow. -/
def ExtrinsicLen.total_num_scalars (e : ExtrinsicLen) : Option Nat :=
  totalAssoc e.lens

/-- The storage the validator reads, threaded explicitly: the next-AppId
counter (peek_next_application_id), the current block dimensions
(DynamicBlockLength rows and cols, u32 values), and the current
AllExtrinsicsLen snapshot (None when the block has just started). -/
structure Env where
  nextAppId : Nat
  rows : Nat
  cols : Nat
  allExtrinsicsLen : Option ExtrinsicLen
deriving DecidableEq

/-- next_all_extrinsics_len from the Rust source: narrow the serialized
length to u32, compute the grid capacity rows * cols with checked_mul,
add the padded length under the AppId into the current snapshot (falling
back to the default when none is stored), total the padded scalars, and
return the new snapshot only when the total is within capacity.  Every
failing step yields None. -/
def next_all_extrinsics_len (appId len rows cols : Nat) (cur : Option ExtrinsicLen) :
    Option ExtrinsicLen :=
  match u32_try_from len with
  | none => none
  | some len32 =>
    match checkedMul rows cols with
    | none => none
    | some max_scalars =>
      match (cur.getD ExtrinsicLen.empty).add_padded appId len32 with
      | none => none
      | some all_extrinsics_len =>
        match all_extrinsics_len.total_num_scalars with
        | none => none
        | some total_scalars =>
          if total_scalars ≤ max_scalars then some all_extrinsics_len else none

/-- The ValidTransaction value returned on success; do_validate returns
ValidTransaction::default(). -/
structure ValidTransaction where
  priority : Nat
  longevity : Nat
  propagate : Bool
deriving DecidableEq

/-- ValidTransaction::default() of sp_runtime: priority 0, maximal
longevity (u64::MAX), propagate true. -/
def ValidTransaction.default : ValidTransaction := ⟨0, 18446744073709551615, true⟩

/-- do_validate from the Rust source: run ensure_valid_app_id first; on
success run next_all_extrinsics_len, mapping its None to the
MaxPaddedLenExceeded rejection; only then put the new snapshot into
AllExtrinsicsLen and return ValidTransaction::default().  The returned
environment is the storage state after the call. -/
def do_validate (appId : Nat) (call : Call) (len : Nat) (env : Env) :
    Except RejectReason ValidTransaction × Env :=
  match ensure_valid_app_id appId env.nextAppId call with
  | .error e => (.error e, env)
  | .ok () =>
    match next_all_extrinsics_len appId len env.rows env.cols env.allExtrinsicsLen with
    | none => (.error RejectReason.maxPaddedLenExceeded, env)
    | some all_extrinsics_len =>
        (.ok ValidTransaction.default, { env with allExtrinsicsLen := some all_extrinsics_len })

/-- SignedExtension::validate for CheckAppId: delegates to do_validate. -/
def validate (appId : Nat) (call : Call) (len : Nat) (env : Env) :
    Except RejectReason ValidTransaction × Env :=
  do_validate appId call len env

/-- SignedExtension::pre_dispatch for CheckAppId: delegates to
do_validate and discards the ValidTransaction value. -/
def pre_dispatch (appId : Nat) (call : Call) (len : Nat) (env : Env) :
    Except RejectReason Unit × Env :=
  match do_validate appId call len env with
  | (.ok _, env2) => (.ok (), env2)
  | (.error e, env2) => (.error e, env2)

theorem hasOtherLeafList_append (xs ys : List Call) :
    hasOtherLeafList (xs ++ ys) = (hasOtherLeafList xs || hasOtherLeafList ys) := by
  induction xs with
  | nil => simp [hasOtherLeafList]
  | cons c cs ih => simp [hasOtherLeafList, ih, Bool.or_assoc]

theorem hasOtherLeafList_reverse (xs : List Call) :
    hasOtherLeafList xs.reverse = hasOtherLeafList xs := by
  induction xs with
  | nil => rfl
  | cons c cs ih =>
    simp [List.reverse_cons, hasOtherLeafList_append, hasOtherLeafList, ih, Bool.or_comm]

theorem hasSubmitLeafList_append (xs ys : List Call) :
    hasSubmitLeafList (xs ++ ys) = (hasSubmitLeafList xs || hasSubmitLeafList ys) := by
  induction xs with
  | nil => simp [hasSubmitLeafList]
  | cons c cs ih => simp [hasSubmitLeafList, ih, Bool.or_assoc]

theorem hasSubmitLeafList_reverse (xs : List Call) :
    hasSubmitLeafList xs.reverse = hasSubmitLeafList xs := by
  induction xs with
  | nil => rfl
  | cons c cs ih =>
    simp [List.reverse_cons, hasSubmitLeafList_append, hasSubmitLeafList, ih, Bool.or_comm]

theorem compositeCountList_append (xs ys : List Call) :
    compositeCountList (xs ++ ys) = compositeCountList xs + compositeCountList ys := by
  induction xs with
  | nil => simp [compositeCountList]
  | cons c cs ih => simp [compositeCountList, ih]; omega

theorem compositeCountList_reverse (xs : List Call) :
    compositeCountList xs.reverse = compositeCountList xs := by
  induction xs with
  | nil => rfl
  | cons c cs ih =>
    simp [List.reverse_cons, compositeCountList_append, compositeCountList, ih]
    omega

theorem validLoop_eq_refetch (a n : Nat) (stack : List Call) (cache : Option Nat) (iter : Nat) :
    cache = none ∨ cache = some n →
    validLoop a n stack cache iter = validLoopRefetch a n stack iter := by
  induction stack, cache, iter using validLoop.induct a n with
  | case1 cache iter =>
    intro hc
    simp [validLoop, validLoopRefetch]
  | case2 rest cache iter hlt ih =>
    intro hc
    have hg : cache.getD n = n := by rcases hc with h | h <;> simp [h]
    rw [hg] at hlt
    rw [hg] at ih
    simp only [validLoop, validLoopRefetch, hg, hlt, if_pos]
    exact ih (Or.inr rfl)
  | case3 rest cache iter hlt =>
    intro hc
    have hg : cache.getD n = n := by rcases hc with h | h <;> simp [h]
    rw [hg] at hlt
    simp [validLoop, validLoopRefetch, hg, hlt]
  | case4 cs rest cache iter hlt ih =>
    intro hc
    simp only [validLoop, validLoopRefetch, hlt, if_pos]
    exact ih hc
  | case5 cs rest cache iter hlt =>
    intro hc
    simp [validLoop, validLoopRefetch, hlt]
  | case6 cs rest cache iter hlt ih =>
    intro hc
    simp only [validLoop, validLoopRefetch, hlt, if_pos]
    exact ih hc
  | case7 cs rest cache iter hlt =>
    intro hc
    simp [validLoop, validLoopRefetch, hlt]
  | case8 cs rest cache iter hlt ih =>
    intro hc
    simp only [validLoop, validLoopRefetch, hlt, if_pos]
    exact ih hc
  | case9 cs rest cache iter hlt =>
    intro hc
    simp [validLoop, validLoopRefetch, hlt]
  | case10 rest cache iter =>
    intro hc
    simp [validLoop, validLoopRefetch]

theorem ensure_eq_refetch (a n : Nat) (call : Call) :
    ensure_valid_app_id a n call = ensure_valid_app_id_refetch a n call := by
  unfold ensure_valid_app_id ensure_valid_app_id_refetch
  by_cases h : a = 0
  · simp [h]
  · simp only [h, if_neg]
    exact validLoop_eq_refetch a n [call] none 0 (Or.inl rfl)


theorem refetch_no_maxPadded (a n : Nat) (stack : List Call) (iter : Nat) :
    validLoopRefetch a n stack iter ≠ .error RejectReason.maxPaddedLenExceeded := by
  induction stack, iter using validLoopRefetch.induct a n with
  | case1 iter => simp [validLoopRefetch]
  | case2 rest iter hlt ih => simp only [validLoopRefetch, hlt, if_pos]; exact ih
  | case3 rest iter hlt => simp [validLoopRefetch, hlt]
  | case4 cs rest iter hlt ih => simp only [validLoopRefetch, hlt, if_pos]; exact ih
  | case5 cs rest iter hlt => simp [validLoopRefetch, hlt]
  | case6 cs rest iter hlt ih => simp only [validLoopRefetch, hlt, if_pos]; exact ih
  | case7 cs rest iter hlt => simp [validLoopRefetch, hlt]
  | case8 cs rest iter hlt ih => simp only [validLoopRefetch, hlt, if_pos]; exact ih
  | case9 cs rest iter hlt => simp [validLoopRefetch, hlt]
  | case10 rest iter => simp [validLoopRefetch]

theorem refetch_ok_no_other (a n : Nat) (stack : List Call) (iter : Nat) :
    validLoopRefetch a n stack iter = .ok () → hasOtherLeafList stack = false := by
  induction stack, iter using validLoopRefetch.induct a n with
  | case1 iter => intro _; simp [hasOtherLeafList]
  | case2 rest iter hlt ih =>
    intro h
    simp only [validLoopRefetch, hlt, if_pos] at h
    simp [hasOtherLeafList, hasOtherLeaf, ih h]
  | case3 rest iter hlt => intro h; simp [validLoopRefetch, hlt] at h
  | case4 cs rest iter hlt ih =>
    intro h
    simp only [validLoopRefetch, hlt, if_pos] at h
    have h2 := ih h
    simp only [hasOtherLeafList_append, hasOtherLeafList_reverse,
      Bool.or_eq_false_iff] at h2
    simp [hasOtherLeafList, hasOtherLeaf, h2.1, h2.2]
  | case5 cs rest iter hlt => intro h; simp [validLoopRefetch, hlt] at h
  | case6 cs rest iter hlt ih =>
    intro h
    simp only [validLoopRefetch, hlt, if_pos] at h
    have h2 := ih h
    simp only [hasOtherLeafList_append, hasOtherLeafList_reverse,
      Bool.or_eq_false_iff] at h2
    simp [hasOtherLeafList, hasOtherLeaf, h2.1, h2.2]
  | case7 cs rest iter hlt => intro h; simp [validLoopRefetch, hlt] at h
  | case8 cs rest iter hlt ih =>
    intro h
    simp only [validLoopRefetch, hlt, if_pos] at h
    have h2 := ih h
    simp only [hasOtherLeafList_append, hasOtherLeafList_reverse,
      Bool.or_eq_false_iff] at h2
    simp [hasOtherLeafList, hasOtherLeaf, h2.1, h2.2]
  | case9 cs rest iter hlt => intro h; simp [validLoopRefetch, hlt] at h
  | case10 rest iter => intro h; simp [validLoopRefetch] at h

theorem refetch_ok_of (a n : Nat) (stack : List Call) (iter : Nat) :
    hasOtherLeafList stack = false →
    iter + compositeCountList stack < MAX_ITERATIONS →
    (a < n ∨ hasSubmitLeafList stack = false) →
    validLoopRefetch a n stack iter = .ok () := by
  induction stack, iter using validLoopRefetch.induct a n with
  | case1 iter => intro _ _ _; simp [validLoopRefetch]
  | case2 rest iter hlt ih =>
    intro h1 h2 h3
    simp only [validLoopRefetch, hlt, if_pos]
    apply ih
    · simpa [hasOtherLeafList, hasOtherLeaf] using h1
    · simpa [compositeCountList, compositeCount] using h2
    · rcases h3 with h | h
      · exact Or.inl h
      · simp [hasSubmitLeafList, hasSubmitLeaf] at h
  | case3 rest iter hlt =>
    intro h1 h2 h3
    rcases h3 with h | h
    · exact absurd h hlt
    · simp [hasSubmitLeafList, hasSubmitLeaf] at h
  | case4 cs rest iter hlt ih =>
    intro h1 h2 h3
    simp only [validLoopRefetch, hlt, if_pos]
    simp only [hasOtherLeafList, hasOtherLeaf, Bool.or_eq_false_iff] at h1
    simp only [compositeCountList, compositeCount] at h2
    apply ih
    · simp [hasOtherLeafList_append, hasOtherLeafList_reverse, h1.1, h1.2]
    · simp only [compositeCountList_append, compositeCountList_reverse]
      omega
    · rcases h3 with h | h
      · exact Or.inl h
      · simp only [hasSubmitLeafList, hasSubmitLeaf, Bool.or_eq_false_iff] at h
        simp [hasSubmitLeafList_append, hasSubmitLeafList_reverse, h.1, h.2]
  | case5 cs rest iter hlt =>
    intro h1 h2 h3
    exfalso
    simp only [compositeCountList, compositeCount] at h2
    omega
  | case6 cs rest iter hlt ih =>
    intro h1 h2 h3
    simp only [validLoopRefetch, hlt, if_pos]
    simp only [hasOtherLeafList, hasOtherLeaf, Bool.or_eq_false_iff] at h1
    simp only [compositeCountList, compositeCount] at h2
    apply ih
    · simp [hasOtherLeafList_append, hasOtherLeafList_reverse, h1.1, h1.2]
    · simp only [compositeCountList_append, compositeCountList_reverse]
      omega
    · rcases h3 with h | h
      · exact Or.inl h
      · simp only [hasSubmitLeafList, hasSubmitLeaf, Bool.or_eq_false_iff] at h
        simp [hasSubmitLeafList_append, hasSubmitLeafList_reverse, h.1, h.2]
  | case7 cs rest iter hlt =>
    intro h1 h2 h3
    exfalso
    simp only [compositeCountList, compositeCount] at h2
    omega
  | case8 cs rest iter hlt ih =>
    intro h1 h2 h3
    simp only [validLoopRefetch, hlt, if_pos]
    simp only [hasOtherLeafList, hasOtherLeaf, Bool.or_eq_false_iff] at h1
    simp only [compositeCountList, compositeCount] at h2
    apply ih
    · simp [hasOtherLeafList_append, hasOtherLeafList_reverse, h1.1, h1.2]
    · simp only [compositeCountList_append, compositeCountList_reverse]
      omega
    · rcases h3 with h | h
      · exact Or.inl h
      · simp only [hasSubmitLeafList, hasSubmitLeaf, Bool.or_eq_false_iff] at h
        simp [hasSubmitLeafList_append, hasSubmitLeafList_reverse, h.1, h.2]
  | case9 cs rest iter hlt =>
    intro h1 h2 h3
    exfalso
    simp only [compositeCountList, compositeCount] at h2
    omega
  | case10 rest iter =>
    intro h1 h2 h3
    simp [hasOtherLeafList, hasOtherLeaf] at h1

theorem refetch_invalid (a n : Nat) (stack : List Call) (iter : Nat) :
    ¬ a < n →
    hasOtherLeafList stack = false →
    iter + compositeCountList stack < MAX_ITERATIONS →
    hasSubmitLeafList stack = true →
    validLoopRefetch a n stack iter = .error RejectReason.invalidAppId := by
  induction stack, iter using validLoopRefetch.induct a n with
  | case1 iter => intro _ _ _ h4; simp [hasSubmitLeafList] at h4
  | case2 rest iter hlt ih => intro hge _ _ _; exact absurd hlt hge
  | case3 rest iter hlt => intro _ _ _ _; simp [validLoopRefetch, hlt]
  | case4 cs rest iter hlt ih =>
    intro hge h1 h2 h4
    simp only [validLoopRefetch, hlt, if_pos]
    simp only [hasOtherLeafList, hasOtherLeaf, Bool.or_eq_false_iff] at h1
    simp only [compositeCountList, compositeCount] at h2
    simp only [hasSubmitLeafList, hasSubmitLeaf, Bool.or_eq_true_iff] at h4
    apply ih hge
    · simp [hasOtherLeafList_append, hasOtherLeafList_reverse, h1.1, h1.2]
    · simp only [compositeCountList_append, compositeCountList_reverse]
      omega
    · simp only [hasSubmitLeafList_append, hasSubmitLeafList_reverse,
        Bool.or_eq_true_iff]
      exact h4
  | case5 cs rest iter hlt =>
    intro _ _ h2 _
    exfalso
    simp only [compositeCountList, compositeCount] at h2
    omega
  | case6 cs rest iter hlt ih =>
    intro hge h1 h2 h4
    simp only [validLoopRefetch, hlt, if_pos]
    simp only [hasOtherLeafList, hasOtherLeaf, Bool.or_eq_false_iff] at h1
    simp only [compositeCountList, compositeCount] at h2
    simp only [hasSubmitLeafList, hasSubmitLeaf, Bool.or_eq_true_iff] at h4
    apply ih hge
    · simp [hasOtherLeafList_append, hasOtherLeafList_reverse, h1.1, h1.2]
    · simp only [compositeCountList_append, compositeCountList_reverse]
      omega
    · simp only [hasSubmitLeafList_append, hasSubmitLeafList_reverse,
        Bool.or_eq_true_iff]
      exact h4
  | case7 cs rest iter hlt =>
    intro _ _ h2 _
    exfalso
    simp only [compositeCountList, compositeCount] at h2
    omega
  | case8 cs rest iter hlt ih =>
    intro hge h1 h2 h4
    simp only [validLoopRefetch, hlt, if_pos]
    simp only [hasOtherLeafList, hasOtherLeaf, Bool.or_eq_false_iff] at h1
    simp only [compositeCountList, compositeCount] at h2
    simp only [hasSubmitLeafList, hasSubmitLeaf, Bool.or_eq_true_iff] at h4
    apply ih hge
    · simp [hasOtherLeafList_append, hasOtherLeafList_reverse, h1.1, h1.2]
    · simp only [compositeCountList_append, compositeCountList_reverse]
      omega
    · simp only [hasSubmitLeafList_append, hasSubmitLeafList_reverse,
        Bool.or_eq_true_iff]
      exact h4
  | case9 cs rest iter hlt =>
    intro _ _ h2 _
    exfalso
    simp only [compositeCountList, compositeCount] at h2
    omega
  | case10 rest iter =>
    intro _ h1 _ _
    simp [hasOtherLeafList, hasOtherLeaf] at h1

theorem refetch_ok_count (a n : Nat) (stack : List Call) (iter : Nat) :
    validLoopRefetch a n stack iter = .ok () →
    compositeCountList stack = 0 ∨ iter + compositeCountList stack < MAX_ITERATIONS := by
  induction stack, iter using validLoopRefetch.induct a n with
  | case1 iter => intro _; left; simp [compositeCountList]
  | case2 rest iter hlt ih =>
    intro h
    simp only [validLoopRefetch, hlt, if_pos] at h
    have h2 := ih h
    simpa [compositeCountList, compositeCount] using h2
  | case3 rest iter hlt => intro h; simp [validLoopRefetch, hlt] at h
  | case4 cs rest iter hlt ih =>
    intro h
    simp only [validLoopRefetch, hlt, if_pos] at h
    have h2 := ih h
    have hlt2 : iter + 1 < 2 := by simpa [MAX_ITERATIONS] using hlt
    right
    simp only [compositeCountList_append, compositeCountList_reverse] at h2
    simp only [compositeCountList, compositeCount, MAX_ITERATIONS] at h2 ⊢
    omega
  | case5 cs rest iter hlt => intro h; simp [validLoopRefetch, hlt] at h
  | case6 cs rest iter hlt ih =>
    intro h
    simp only [validLoopRefetch, hlt, if_pos] at h
    have h2 := ih h
    have hlt2 : iter + 1 < 2 := by simpa [MAX_ITERATIONS] using hlt
    right
    simp only [compositeCountList_append, compositeCountList_reverse] at h2
    simp only [compositeCountList, compositeCount, MAX_ITERATIONS] at h2 ⊢
    omega
  | case7 cs rest iter hlt => intro h; simp [validLoopRefetch, hlt] at h
  | case8 cs rest iter hlt ih =>
    intro h
    simp only [validLoopRefetch, hlt, if_pos] at h
    have h2 := ih h
    have hlt2 : iter + 1 < 2 := by simpa [MAX_ITERATIONS] using hlt
    right
    simp only [compositeCountList_append, compositeCountList_reverse] at h2
    simp only [compositeCountList, compositeCount, MAX_ITERATIONS] at h2 ⊢
    omega
  | case9 cs rest iter hlt => intro h; simp [validLoopRefetch, hlt] at h
  | case10 rest iter => intro h; simp [validLoopRefetch] at h


theorem one_le_compositeCount (c : Call) (h : 1 ≤ compositeDepth c) :
    1 ≤ compositeCount c := by
  cases c
  case submitData => simp [compositeDepth] at h
  case other => simp [compositeDepth] at h
  case batch cs => simp [compositeCount]
  case batchAll cs => simp [compositeCount]
  case forceBatch cs => simp [compositeCount]

theorem one_le_compositeCountList (cs : List Call) (h : 1 ≤ compositeDepthList cs) :
    1 ≤ compositeCountList cs := by
  induction cs with
  | nil => simp [compositeDepthList] at h
  | cons c cs ih =>
    simp only [compositeDepthList] at h
    simp only [compositeCountList]
    rcases le_max_iff.mp h with h1 | h1
    · have := one_le_compositeCount c h1
      omega
    · have := ih h1
      omega

theorem two_le_compositeCount_of_depth (c : Call) (h : 2 ≤ compositeDepth c) :
    2 ≤ compositeCount c := by
  cases c <;> simp only [compositeDepth, compositeCount] at h ⊢
  case submitData => omega
  case other => omega
  case batch cs =>
    have := one_le_compositeCountList cs (by omega)
    omega
  case batchAll cs =>
    have := one_le_compositeCountList cs (by omega)
    omega
  case forceBatch cs =>
    have := one_le_compositeCountList cs (by omega)
    omega

theorem ensure_nonzero_eq_refetchLoop (a n : Nat) (call : Call) (ha : a ≠ 0) :
    ensure_valid_app_id a n call = validLoopRefetch a n [call] 0 := by
  rw [ensure_eq_refetch]
  simp [ensure_valid_app_id_refetch, ha]

/-- C5: for every call tree and every value of the next-AppId counter, the
AppId validator accepts immediately when the attached AppId is 0; the
result is the same for all call trees and all counter values, so no
traversal of the call and no read of the counter can influence it. -/
theorem appId_zero_always_accepts (nextAppId : Nat) (call : Call) :
    ensure_valid_app_id 0 nextAppId call = .ok () := by
  simp [ensure_valid_app_id]

/-- C1 counterexample: with AppId 1, next-AppId counter 1 (AppId 1 not
registered), the call batch [other, submit_data] contains a
non-submit-data, non-composite leaf, yet validation rejects with
InvalidAppId, not ForbiddenAppId: the stack traversal pops the
submit-data leaf first. -/
theorem batch_other_submit_rejects_invalid :
    ensure_valid_app_id 1 1 (Call.batch [Call.other, Call.submitData])
        = .error RejectReason.invalidAppId ∧
    RejectReason.invalidAppId ≠ RejectReason.forbiddenAppId ∧
    hasOtherLeaf (Call.batch [Call.other, Call.submitData]) = true := by
  refine ⟨?_, by decide, ?_⟩
  · simp [ensure_valid_app_id, validLoop, MAX_ITERATIONS]
  · simp [hasOtherLeaf, hasOtherLeafList]

/-- C1 (amended): for every non-zero AppId and every call tree containing
at least one leaf that is neither submit-data nor a composite, validation
rejects, regardless of the other leaves and of the counter value; the
rejection reason is one of the three traversal errors (ForbiddenAppId,
InvalidAppId or MaxRecursionExceeded), never MaxPaddedLenExceeded, and
which of the three is determined by stack traversal order. -/
theorem nonzero_appId_bad_leaf_rejects (a n : Nat) (call : Call)
    (ha : a ≠ 0) (hb : hasOtherLeaf call = true) :
    ∃ e, ensure_valid_app_id a n call = .error e ∧
      e ≠ RejectReason.maxPaddedLenExceeded := by
  rw [ensure_nonzero_eq_refetchLoop a n call ha]
  cases hres : validLoopRefetch a n [call] 0 with
  | ok v =>
    exfalso
    cases v
    have h2 := refetch_ok_no_other a n [call] 0 hres
    simp [hasOtherLeafList, hb] at h2
  | error e =>
    refine ⟨e, rfl, ?_⟩
    intro he
    subst he
    exact refetch_no_maxPadded a n [call] 0 hres

/-- C1 witness: the amended theorem applied to AppId 1, counter 1 and the
bare non-submit-data call. -/
theorem nonzero_appId_bad_leaf_rejects_witness :
    ∃ e, ensure_valid_app_id 1 1 Call.other = .error e ∧
      e ≠ RejectReason.maxPaddedLenExceeded :=
  nonzero_appId_bad_leaf_rejects 1 1 Call.other (by decide) (by simp [hasOtherLeaf])

/-- C3 counterexample: with AppId 1 and next-AppId counter 1 (so the AppId
is not below the counter), the empty batch — whose every leaf is vacuously
submit-data, as the claim itself includes — is accepted, falsifying both
the accepts-iff-registered equivalence and the rejects-with-InvalidAppId
clause. -/
theorem empty_batch_accepts_unregistered :
    ensure_valid_app_id 1 1 (Call.batch []) = .ok () ∧ ¬ (1 : Nat) < 1 := by
  constructor
  · simp [ensure_valid_app_id, validLoop, MAX_ITERATIONS]
  · decide

/-- C3 (amended): for every non-zero AppId and every call tree within the
composite-unwrap bound (at most one composite node in the whole tree)
whose every leaf is submit-data, the validator accepts if and only if the
AppId is below the next-AppId counter or the tree contains no submit-data
leaf at all (empty composites); when the AppId is not below the counter
and at least one submit-data leaf exists, it rejects with InvalidAppId. -/
theorem all_submit_within_bound_accepts_iff (a n : Nat) (call : Call)
    (ha : a ≠ 0) (hleaves : hasOtherLeaf call = false)
    (hbound : compositeCount call < MAX_ITERATIONS) :
    (ensure_valid_app_id a n call = .ok () ↔
      (a < n ∨ hasSubmitLeaf call = false)) ∧
    (¬ a < n → hasSubmitLeaf call = true →
      ensure_valid_app_id a n call = .error RejectReason.invalidAppId) := by
  have heq := ensure_nonzero_eq_refetchLoop a n call ha
  have hinv : ∀ hge : ¬ a < n, ∀ hsub : hasSubmitLeaf call = true,
      ensure_valid_app_id a n call = .error RejectReason.invalidAppId := by
    intro hge hsub
    rw [heq]
    apply refetch_invalid a n [call] 0 hge
    · simp [hasOtherLeafList, hleaves]
    · simpa [compositeCountList] using hbound
    · simp [hasSubmitLeafList, hsub]
  refine ⟨⟨?_, ?_⟩, hinv⟩
  · intro hok
    by_contra hcon
    push_neg at hcon
    have hsub : hasSubmitLeaf call = true := by
      cases hs : hasSubmitLeaf call
      · exact absurd hs hcon.2
      · rfl
    rw [hinv (Nat.not_lt.mpr hcon.1) hsub] at hok
    exact Except.noConfusion hok
  · intro hor
    rw [heq]
    apply refetch_ok_of
    · simp [hasOtherLeafList, hleaves]
    · simpa [compositeCountList] using hbound
    · rcases hor with h | h
      · exact Or.inl h
      · exact Or.inr (by simp [hasSubmitLeafList, h])

/-- C3 witness: the amended theorem applied to AppId 1, counter 2 and a
bare submit-data call. -/
theorem all_submit_within_bound_accepts_iff_witness :
    (ensure_valid_app_id 1 2 Call.submitData = .ok () ↔
      ((1 : Nat) < 2 ∨ hasSubmitLeaf Call.submitData = false)) ∧
    (¬ (1 : Nat) < 2 → hasSubmitLeaf Call.submitData = true →
      ensure_valid_app_id 1 2 Call.submitData = .error RejectReason.invalidAppId) :=
  all_submit_within_bound_accepts_iff 1 2 Call.submitData (by decide)
    (by simp [hasOtherLeaf]) (by simp [compositeCount, MAX_ITERATIONS])

/-- C4 counterexample: with AppId 1 the call batch [batch [], other] has
composite nesting depth 2, at the bound, yet validation rejects with
ForbiddenAppId, not MaxRecursionExceeded: the plain leaf is popped before
the inner batch. -/
theorem nested_batch_rejects_forbidden :
    ensure_valid_app_id 1 2 (Call.batch [Call.batch [], Call.other])
        = .error RejectReason.forbiddenAppId ∧
    RejectReason.forbiddenAppId ≠ RejectReason.maxRecursionExceeded ∧
    compositeDepth (Call.batch [Call.batch [], Call.other]) = 2 := by
  refine ⟨?_, by decide, ?_⟩
  · simp [ensure_valid_app_id, validLoop, MAX_ITERATIONS]
  · simp [compositeDepth, compositeDepthList]

/-- C4 (amended): for every non-zero AppId, a call tree whose composite
nesting reaches or exceeds the bound (a batch containing another batch) is
always rejected, regardless of leaf content and of the counter value, but
the rejection reason is MaxRecursionExceeded only when no forbidden or
unregistered submit-data leaf is popped earlier in traversal order. -/
theorem nested_composites_reject (a n : Nat) (call : Call)
    (ha : a ≠ 0) (hdepth : 2 ≤ compositeDepth call) :
    ∃ e, ensure_valid_app_id a n call = .error e := by
  have hcount := two_le_compositeCount_of_depth call hdepth
  rw [ensure_nonzero_eq_refetchLoop a n call ha]
  cases hres : validLoopRefetch a n [call] 0 with
  | ok v =>
    exfalso
    cases v
    have h2 := refetch_ok_count a n [call] 0 hres
    simp [compositeCountList, MAX_ITERATIONS] at h2
    omega
  | error e => exact ⟨e, rfl⟩

/-- C4 witness: the amended theorem applied to AppId 1, counter 0 and a
batch directly containing a batch. -/
theorem nested_composites_reject_witness :
    ∃ e, ensure_valid_app_id 1 0 (Call.batch [Call.batch []]) = .error e :=
  nested_composites_reject 1 0 (Call.batch [Call.batch []]) (by decide)
    (by simp [compositeDepth, compositeDepthList])

/-- C9: the unwrap counter counts composite calls across the whole
traversal, not nesting depth: a root batch holding two composite siblings
(nesting depth 1) is rejected with MaxRecursionExceeded for every non-zero
AppId and every counter value, whatever the two composites contain. -/
theorem sibling_composites_reject (a n : Nat) (b1 b2 : Call)
    (ha : a ≠ 0) (_hb1 : isComposite b1 = true) (h2 : isComposite b2 = true) :
    ensure_valid_app_id a n (Call.batch [b1, b2])
      = .error RejectReason.maxRecursionExceeded := by
  rw [ensure_nonzero_eq_refetchLoop a n (Call.batch [b1, b2]) ha]
  cases b2 with
  | submitData => simp [isComposite] at h2
  | other => simp [isComposite] at h2
  | batch cs => simp [validLoopRefetch, MAX_ITERATIONS]
  | batchAll cs => simp [validLoopRefetch, MAX_ITERATIONS]
  | forceBatch cs => simp [validLoopRefetch, MAX_ITERATIONS]

/-- C9 witness: the theorem applied to AppId 1, counter 5 and two empty
composite siblings of different variants, every leaf (vacuously)
submit-data. -/
theorem sibling_composites_reject_witness :
    ensure_valid_app_id 1 5 (Call.batch [Call.batch [], Call.batchAll []])
      = .error RejectReason.maxRecursionExceeded :=
  sibling_composites_reject 1 5 (Call.batch []) (Call.batchAll [])
    (by decide) (by decide) (by decide)

/-- C8: the implemented validator, which lazily caches the next-AppId
counter after the first submit-data leaf, and the spec-modelled variant
that re-fetches the counter at every submit-data leaf return the same
result on every AppId, counter value and call tree, the counter being
stable within one validation. -/
theorem cached_and_refetch_validators_agree (a n : Nat) (call : Call) :
    ensure_valid_app_id a n call = ensure_valid_app_id_refetch a n call :=
  ensure_eq_refetch a n call


/-- C6: do_validate runs the AppId validator first and the accountant
second: a validator rejection is returned as is with the storage
unchanged (the accountant is never consulted), an accountant failure is
returned as MaxPaddedLenExceeded with the storage unchanged, and only when
both succeed is the new snapshot written to AllExtrinsicsLen. -/
theorem do_validate_sequencing (a : Nat) (call : Call) (len : Nat) (env : Env) :
    (∀ e, ensure_valid_app_id a env.nextAppId call = .error e →
      do_validate a call len env = (.error e, env)) ∧
    (ensure_valid_app_id a env.nextAppId call = .ok () →
      next_all_extrinsics_len a len env.rows env.cols env.allExtrinsicsLen = none →
      do_validate a call len env = (.error RejectReason.maxPaddedLenExceeded, env)) ∧
    (∀ all, ensure_valid_app_id a env.nextAppId call = .ok () →
      next_all_extrinsics_len a len env.rows env.cols env.allExtrinsicsLen = some all →
      do_validate a call len env =
        (.ok ValidTransaction.default, { env with allExtrinsicsLen := some all })) := by
  refine ⟨?_, ?_, ?_⟩
  · intro e he
    simp [do_validate, he]
  · intro hok hnone
    simp [do_validate, hok, hnone]
  · intro all hok hsome
    simp [do_validate, hok, hsome]

/-- C6 witness: the sequencing theorem applied to a validator rejection: a
non-submit-data call under AppId 1 is rejected with ForbiddenAppId and the
environment, including the accounting storage, is unchanged. -/
theorem do_validate_sequencing_witness :
    do_validate 1 Call.other 5 ⟨2, 4, 4, none⟩
      = (.error RejectReason.forbiddenAppId, ⟨2, 4, 4, none⟩) :=
  (do_validate_sequencing 1 Call.other 5 ⟨2, 4, 4, none⟩).1 RejectReason.forbiddenAppId
    (by simp [ensure_valid_app_id, validLoop])

/-- C2: accounting is atomic per transaction: under a passing AppId check,
with the serialized length narrowed to len32, the capacity rows * cols
computed as m, the snapshot with the padded length added under the AppId
being all and its grand total t, do_validate rejects with
MaxPaddedLenExceeded and leaves AllExtrinsicsLen unchanged when t exceeds
m, commits exactly the snapshot all when t is within m, and in every case
either leaves the environment unchanged or commits a snapshot whose total
is within rows * cols. -/
theorem accounting_atomic (a : Nat) (call : Call) (len : Nat) (env : Env)
    (len32 m t : Nat) (all : ExtrinsicLen)
    (hvalid : ensure_valid_app_id a env.nextAppId call = .ok ())
    (hlen : u32_try_from len = some len32)
    (hm : checkedMul env.rows env.cols = some m)
    (hadd : (env.allExtrinsicsLen.getD ExtrinsicLen.empty).add_padded a len32 = some all)
    (ht : all.total_num_scalars = some t) :
    (m < t → do_validate a call len env = (.error RejectReason.maxPaddedLenExceeded, env)) ∧
    (t ≤ m → do_validate a call len env =
      (.ok ValidTransaction.default, { env with allExtrinsicsLen := some all })) ∧
    (∀ r env2, do_validate a call len env = (r, env2) →
      env2 = env ∨ (env2 = { env with allExtrinsicsLen := some all } ∧ t ≤ m)) := by
  have hnext : next_all_extrinsics_len a len env.rows env.cols env.allExtrinsicsLen
      = if t ≤ m then some all else none := by
    simp [next_all_extrinsics_len, hlen, hm, hadd, ht]
  refine ⟨?_, ?_, ?_⟩
  · intro hmt
    have hnone : next_all_extrinsics_len a len env.rows env.cols env.allExtrinsicsLen
        = none := by
      rw [hnext, if_neg (by omega)]
    simp [do_validate, hvalid, hnone]
  · intro htm
    have hsome : next_all_extrinsics_len a len env.rows env.cols env.allExtrinsicsLen
        = some all := by
      rw [hnext, if_pos htm]
    simp [do_validate, hvalid, hsome]
  · intro r env2 hdv
    by_cases htm : t ≤ m
    · have hsome : next_all_extrinsics_len a len env.rows env.cols env.allExtrinsicsLen
          = some all := by
        rw [hnext, if_pos htm]
      have hd2 : do_validate a call len env =
          (.ok ValidTransaction.default, { env with allExtrinsicsLen := some all }) := by
        simp [do_validate, hvalid, hsome]
      rw [hd2] at hdv
      injection hdv with hr he
      exact Or.inr ⟨he.symm, htm⟩
    · have hnone : next_all_extrinsics_len a len env.rows env.cols env.allExtrinsicsLen
          = none := by
        rw [hnext, if_neg htm]
      have hd2 : do_validate a call len env =
          (.error RejectReason.maxPaddedLenExceeded, env) := by
        simp [do_validate, hvalid, hnone]
      rw [hd2] at hdv
      injection hdv with hr he
      exact Or.inl he.symm

/-- C2 witness: the atomicity theorem applied to AppId 1 (registered,
counter 2), a submit-data call of serialized length 5 on an empty 4 x 4
block: the padded length is 1 scalar, within the 16-scalar capacity, and
the snapshot holding 1 scalar under AppId 1 is committed. -/
theorem accounting_atomic_witness :
    ((16 : Nat) < 1 → do_validate 1 Call.submitData 5 ⟨2, 4, 4, none⟩
      = (.error RejectReason.maxPaddedLenExceeded, ⟨2, 4, 4, none⟩)) ∧
    ((1 : Nat) ≤ 16 → do_validate 1 Call.submitData 5 ⟨2, 4, 4, none⟩
      = (.ok ValidTransaction.default,
          { (⟨2, 4, 4, none⟩ : Env) with allExtrinsicsLen := some ⟨[(1, 1)]⟩ })) ∧
    (∀ r env2, do_validate 1 Call.submitData 5 ⟨2, 4, 4, none⟩ = (r, env2) →
      env2 = ⟨2, 4, 4, none⟩ ∨
        (env2 = { (⟨2, 4, 4, none⟩ : Env) with allExtrinsicsLen := some ⟨[(1, 1)]⟩ } ∧
          (1 : Nat) ≤ 16)) :=
  accounting_atomic 1 Call.submitData 5 ⟨2, 4, 4, none⟩ 5 16 1 ⟨[(1, 1)]⟩
    (by simp [ensure_valid_app_id, validLoop]) (by decide) (by decide) (by decide)
    (by decide)

/-- C7: under a passing AppId check, every arithmetic failure in the
accountant — the serialized length not fitting u32, overflow of the
rows * cols multiplication, overflow when adding the padded length under
the AppId, or overflow of the grand total — makes do_validate reject with
MaxPaddedLenExceeded, the same reason as capacity exhaustion, with the
environment unchanged. -/
theorem accountant_arith_failures (a : Nat) (call : Call) (len : Nat) (env : Env)
    (hvalid : ensure_valid_app_id a env.nextAppId call = .ok ())
    (hfail : u32_try_from len = none ∨
      checkedMul env.rows env.cols = none ∨
      (∃ len32, u32_try_from len = some len32 ∧
        (env.allExtrinsicsLen.getD ExtrinsicLen.empty).add_padded a len32 = none) ∨
      (∃ len32 all, u32_try_from len = some len32 ∧
        (env.allExtrinsicsLen.getD ExtrinsicLen.empty).add_padded a len32 = some all ∧
        all.total_num_scalars = none)) :
    do_validate a call len env = (.error RejectReason.maxPaddedLenExceeded, env) := by
  have hnone : next_all_extrinsics_len a len env.rows env.cols env.allExtrinsicsLen
      = none := by
    rcases hfail with h | h | ⟨l32, h1, h2⟩ | ⟨l32, all, h1, h2, h3⟩
    · simp [next_all_extrinsics_len, h]
    · cases hu : u32_try_from len with
      | none => simp [next_all_extrinsics_len, hu]
      | some l => simp [next_all_extrinsics_len, hu, h]
    · cases hcm : checkedMul env.rows env.cols with
      | none => simp [next_all_extrinsics_len, h1, hcm]
      | some m => simp [next_all_extrinsics_len, h1, hcm, h2]
    · cases hcm : checkedMul env.rows env.cols with
      | none => simp [next_all_extrinsics_len, h1, hcm]
      | some m => simp [next_all_extrinsics_len, h1, hcm, h2, h3]
  simp [do_validate, hvalid, hnone]

/-- C7 witness: the theorem applied to a submit-data call whose serialized
length 4294967296 does not fit in u32. -/
theorem accountant_arith_failures_witness :
    do_validate 1 Call.submitData 4294967296 ⟨2, 4, 4, none⟩
      = (.error RejectReason.maxPaddedLenExceeded, ⟨2, 4, 4, none⟩) :=
  accountant_arith_failures 1 Call.submitData 4294967296 ⟨2, 4, 4, none⟩
    (by simp [ensure_valid_app_id, validLoop]) (Or.inl (by decide))

/-- C10: the two SignedExtension entry points agree: validate and
pre_dispatch both delegate to do_validate, leave the same storage state,
accept together, and reject with the same reason. -/
theorem entry_points_agree (a : Nat) (call : Call) (len : Nat) (env : Env) :
    (pre_dispatch a call len env).2 = (validate a call len env).2 ∧
    ((∃ v, (validate a call len env).1 = .ok v) ↔
      (pre_dispatch a call len env).1 = .ok ()) ∧
    (∀ e, (validate a call len env).1 = .error e ↔
      (pre_dispatch a call len env).1 = .error e) := by
  unfold validate pre_dispatch
  cases hdv : do_validate a call len env with
  | mk r env2 =>
    cases r with
    | ok v => simp
    | error e => simp


/-- C10 witness: the agreement theorem applied at a concrete accepted
transaction. -/
theorem entry_points_agree_witness :
    (pre_dispatch 1 Call.submitData 5 ⟨2, 4, 4, none⟩).2
        = (validate 1 Call.submitData 5 ⟨2, 4, 4, none⟩).2 ∧
    ((∃ v, (validate 1 Call.submitData 5 ⟨2, 4, 4, none⟩).1 = .ok v) ↔
      (pre_dispatch 1 Call.submitData 5 ⟨2, 4, 4, none⟩).1 = .ok ()) ∧
    (∀ e, (validate 1 Call.submitData 5 ⟨2, 4, 4, none⟩).1 = .error e ↔
      (pre_dispatch 1 Call.submitData 5 ⟨2, 4, 4, none⟩).1 = .error e) :=
  entry_points_agree 1 Call.submitData 5 ⟨2, 4, 4, none⟩

end AvailDactr
